import Mathlib

/-!
Verification of `update_congressional_records.py`: a shallow embedding of the
script's rate-limited client, catalog synchronizer, completeness evaluator and
incremental download controller, followed by theorems settling the spec claims.

Modelling conventions:
* Machine time, the network and the filesystem are replaced by explicit
  oracles: a `List ApiResponse` stands for the successive outcomes of the HTTP
  requests a retry loop issues, and a `String → Bool` predicate stands for
  `Path.exists`.
* Python truthiness of `None` / `""` is modelled explicitly (`pyTruthy`).
* Dates are integers ordered like the datetimes the script compares.
-/

namespace CongressionalRecords

/-! ## RateLimitedClient: key rotation state (lines 19-33, 68-71, 135-138) -/

/-- The mutable client state of `CongressionalRecordUpdater` that the request
counters and key rotation touch: `request_count`, the index of
`current_api_key` in `api_keys` (the `cycle` iterator), and the number of
configured keys. -/
structure ClientState where
  requestCount : Nat
  keyIndex : Nat
  numKeys : Nat
deriving DecidableEq, Repr

/-- `get_next_api_key` (lines 30-33): advance the `cycle(api_keys)` iterator. -/
def get_next_api_key (s : ClientState) : ClientState :=
  { s with keyIndex := (s.keyIndex + 1) % s.numKeys }

/-- The counter/rotation side effect of one listing request in `make_request`
(lines 68-71): `request_count += 1`, then rotate when divisible by 4. -/
def listingRequestStep (s : ClientState) : ClientState :=
  let s2 : ClientState := { s with requestCount := s.requestCount + 1 }
  if s2.requestCount % 4 = 0 then get_next_api_key s2 else s2

/-- The counter/rotation side effect of one download request in
`download_article_text` (lines 135-138): the same shared `request_count` is
incremented, rotating when divisible by 10. -/
def downloadRequestStep (s : ClientState) : ClientState :=
  let s2 : ClientState := { s with requestCount := s.requestCount + 1 }
  if s2.requestCount % 10 = 0 then get_next_api_key s2 else s2

/-- Run a mixed sequence of requests: `true` entries are listing calls,
`false` entries are download calls. -/
def runRequests : List Bool → ClientState → ClientState
  | [], s => s
  | true :: rest, s => runRequests rest (listingRequestStep s)
  | false :: rest, s => runRequests rest (downloadRequestStep s)

/-! ## RateLimitedClient: 429 handling and retry loops (lines 35-105, 122-169) -/

/-- `handle_429_error` (lines 35-53): with more than one key the client only
rotates (no wait, returns `none`); with a single key it sleeps
`min(2 ** attempt, 60)` seconds for the first 5 attempts and 60 seconds
afterwards. The returned value is the wait in seconds. -/
def handle_429_wait (numKeys attempt : Nat) : Option Nat :=
  if 1 < numKeys then none
  else if attempt ≤ 5 then some (min (2 ^ attempt) 60)
  else some 60

/-- Outcome of one HTTP request as seen by a retry loop. -/
inductive ApiResponse where
  | ok (payload : Nat)
  | rateLimited
  | timeout
  | otherError
deriving DecidableEq, Repr

/-- `make_request` (lines 55-105) with its default `max_retries = inf`: the
`while` guard is always true, a 429 response retries unconditionally
(incrementing `attempt`), a timeout retries while `attempt < 3` and otherwise
yields `None`, any other error yields `None`, and a success returns the JSON
payload. The oracle list supplies the outcome of each attempted request;
an exhausted oracle is reported as `none`. -/
def make_request : List ApiResponse → Nat → Option Nat
  | [], _ => none
  | .ok p :: _, _ => some p
  | .rateLimited :: rest, attempt => make_request rest (attempt + 1)
  | .timeout :: rest, attempt =>
      if attempt < 3 then make_request rest (attempt + 1) else none
  | .otherError :: _, _ => none

/-- `download_article_text` (lines 122-169) with `max_retries = 3`: the
`while attempt <= max_retries` guard is checked before each request; when it
fails the function falls off the end and Python returns `None` (modelled
`none`). A 429 retries and increments `attempt`; a timeout retries while
`attempt < max_retries` and otherwise returns `False`; other exceptions
return `False`; success writes the file and returns `True`. -/
def download_article_text (maxRetries : Nat) : List ApiResponse → Nat → Option Bool
  | [], _ => none
  | r :: rest, attempt =>
    if maxRetries < attempt then none
    else
      match r with
      | .ok _ => some true
      | .rateLimited => download_article_text maxRetries rest (attempt + 1)
      | .timeout =>
          if attempt < maxRetries then download_article_text maxRetries rest (attempt + 1)
          else some false
      | .otherError => some false

/-! ## IncrementalDownloadController: stop heuristic (lines 27-28, 242-251, 503-526) -/

/-- `stop_threshold` (line 28). -/
def stop_threshold : Nat := 3

/-- The stop bookkeeping of `process_issue` (lines 242-251): on a complete
issue the `consecutive_existing_issues` counter is incremented and the issue
signals `should_stop` when the counter reaches `stop_threshold`; on an
incomplete issue the counter resets to 0 and processing continues. Returns
the new counter and the `should_stop` flag. -/
def processIssueStop (isComplete : Bool) (consecutive : Nat) : Nat × Bool :=
  if isComplete then
    (consecutive + 1, decide (stop_threshold ≤ consecutive + 1))
  else
    (0, false)

/-- The driving loop of `main` (lines 503-526): issues are processed
newest-to-oldest; each issue's completeness drives `processIssueStop`, and the
loop `break`s as soon as `should_stop` is returned. The result is the number
of issues actually processed (evaluated). -/
def runLoop : List Bool → Nat → Nat
  | [], _ => 0
  | c :: rest, consecutive =>
    let r := processIssueStop c consecutive
    if r.2 then 1 else 1 + runLoop rest r.1

/-! ## CatalogSynchronizer: cutoff filtering (lines 379-386) and merge (404-446) -/

/-- The per-descriptor accumulation of `fetch_recent_issues` (lines 379-386),
over the flattened stream of fetched issue dates (newest first as requested
by `sort=issueDate desc`): each date not strictly older than the cutoff is
appended; at the first date strictly older than the cutoff the function
returns everything accumulated so far, discarding the rest. -/
def fetch_recent_issues (cutoff : Int) : List Int → List Int
  | [] => []
  | d :: rest => if d < cutoff then [] else d :: fetch_recent_issues cutoff rest

/-- An issue descriptor as persisted in `all_issues.json`. -/
structure Issue where
  congress : Nat
  volumeNumber : Nat
  issueNumber : Nat
  issueDate : Int
deriving DecidableEq, Repr

/-- The identity key used by `update_issues_file`: `(volumeNumber, issueNumber)`
(line 431). -/
def issueKey (i : Issue) : Nat × Nat := (i.volumeNumber, i.issueNumber)

/-- The merge step of `update_issues_file` (lines 429-439): the set of
identity keys of the *existing* issues is computed once, and each fetched
issue whose key is not in that set is appended. Keys of issues appended
during the loop are never added to the set. -/
def mergeIssues (existing recent : List Issue) : List Issue :=
  let existingIds := existing.map issueKey
  existing ++ recent.filter (fun i => ¬ issueKey i ∈ existingIds)

/-- `update_issues_file` after the merge re-sorts the whole catalog by
`issueDate` newest first (line 442) before persisting it. -/
def mergeAndSort (existing recent : List Issue) : List Issue :=
  (mergeIssues existing recent).mergeSort (fun a b => b.issueDate ≤ a.issueDate)

/-! ## safe_filename (lines 171-179) -/

/-- The safe character set of `safe_filename` (line 173). -/
def safeChars : List Char :=
  "abcdefghijklmnopqrstuvwxyzABCDEFGHIJKLMNOPQRSTUVWXYZ0123456789-_. ".toList

/-- Python `str.isspace` characters relevant to `str.strip()`. -/
def isPyWhitespace (c : Char) : Bool :=
  c = ' ' ∨ c = '\t' ∨ c = '\n' ∨ c = '\r' ∨ c = '\x0b' ∨ c = '\x0c'

/-- Python `str.strip()`: remove leading and trailing whitespace. -/
def pyStrip (l : List Char) : List Char :=
  ((l.dropWhile isPyWhitespace).reverse.dropWhile isPyWhitespace).reverse

/-- `safe_filename` (lines 171-179): every character outside the safe set is
replaced by an underscore, the result is truncated to `max_length` (default
100), and finally `strip()`ed. Modelled on the character list of the input
string. -/
def safe_filename (text : List Char) (maxLength : Nat := 100) : List Char :=
  pyStrip ((text.map fun c => if c ∈ safeChars then c else '_').take maxLength)

/-- `safe_filename` on `String`s. -/
def safeFilenameStr (text : String) : String :=
  String.mk (safe_filename text.toList)

/-! ## CompletenessEvaluator (lines 181-227) and artifact paths (220, 286-289) -/

/-- One `(type, url)` entry of a section article's `text` list; `url` may be
absent in the JSON. -/
structure TextItem where
  type : String
  url : Option String
deriving DecidableEq, Repr

/-- A section article; `title` may be absent in the JSON, in which case the
code substitutes `Section_{i}` for its index `i`. -/
structure SectionArticle where
  title : Option String
  text : List TextItem
  startPage : Option String
  endPage : Option String
deriving DecidableEq, Repr

/-- A remote article grouping for one issue. -/
structure Article where
  name : Option String
  sectionArticles : List SectionArticle
deriving DecidableEq, Repr

/-- Python truthiness of `formatted_text_url`: `None` and the empty string
are falsy. -/
def pyTruthy : Option String → Bool
  | none => false
  | some s => !s.isEmpty

/-- The formatted-text search loop (lines 208-213 and 279-284): scan the
`text` list and take the `url` of the *first* item whose `type` is
`"Formatted Text"`, then stop (`break`). -/
def formatted_text_url (items : List TextItem) : Option String :=
  (items.find? fun t => t.type == "Formatted Text").bind (·.url)

/-- A section article counts as downloadable exactly when
`if formatted_text_url:` is taken. -/
def downloadable (sa : SectionArticle) : Bool :=
  pyTruthy (formatted_text_url sa.text)

/-- `section_article.get('title', f'Section_{i}')` (lines 205 and 276). -/
def sectionTitle (i : Nat) (sa : SectionArticle) : String :=
  sa.title.getD ("Section_" ++ toString i)

/-- The issue fields `process_issue` and `check_issue_completeness` read. -/
structure IssueMeta where
  congress : Nat
  volumeNumber : Nat
  issueNumber : Nat
  issueDate : String
deriving DecidableEq, Repr

/-- The artifact path derived inside `check_issue_completeness` (lines
188-189, 219-220): `congress_{congress}/{date}_c{congress}_v{volume}_i{issue}_{safe_title}.html`
with `date = issueDate[:10]`. -/
def completenessArtifactPath (issue : IssueMeta) (title : String) : String :=
  "congress_" ++ toString issue.congress ++ "/" ++
    (issue.issueDate.take 10) ++ "_c" ++ toString issue.congress ++
    "_v" ++ toString issue.volumeNumber ++ "_i" ++ toString issue.issueNumber ++
    "_" ++ safeFilenameStr title ++ ".html"

/-- The artifact path derived inside `process_issue` (lines 256-257,
286-289), written out independently from its own source lines. -/
def processArtifactPath (issue : IssueMeta) (title : String) : String :=
  "congress_" ++ toString issue.congress ++ "/" ++
    (issue.issueDate.take 10) ++ "_c" ++ toString issue.congress ++
    "_v" ++ toString issue.volumeNumber ++ "_i" ++ toString issue.issueNumber ++
    "_" ++ safeFilenameStr title ++ ".html"

/-- The body of the per-section-article counting loop of
`check_issue_completeness` (lines 204-223), folded over the enumerated
section articles of one article grouping. The accumulator is
`(total_articles, existing_articles)`; `fileExists` is the filesystem
oracle for `filename.exists()`. -/
def countSectionArticles (fileExists : String → Bool) (issue : IssueMeta)
    (acc : Nat × Nat) (sas : List SectionArticle) : Nat × Nat :=
  sas.enum.foldl
    (fun acc p =>
      if downloadable p.2 then
        let fname := completenessArtifactPath issue (sectionTitle p.1 p.2)
        (acc.1 + 1, acc.2 + if fileExists fname then 1 else 0)
      else acc)
    acc

/-- `check_issue_completeness` (lines 181-227): if the per-congress directory
does not exist, short-circuit to `(False, 0, 0)` without fetching articles;
otherwise count, over every section article of every article grouping, the
downloadable ones (`total_articles`) and those whose artifact path exists
(`existing_articles`). The issue is complete iff `total_articles > 0` and
`existing_articles == total_articles`. Returns
`(is_complete, existing_articles, total_articles)`. -/
def check_issue_completeness (dirExists : Bool) (fileExists : String → Bool)
    (issue : IssueMeta) (articles : List Article) : Bool × Nat × Nat :=
  if !dirExists then (false, 0, 0)
  else
    let counts := articles.foldl
      (fun acc a => countSectionArticles fileExists issue acc a.sectionArticles)
      (0, 0)
    (decide (0 < counts.1 ∧ counts.2 = counts.1), counts.2, counts.1)

/-! ## Theorems -/

/-- C1: in a newest-to-oldest run starting from a fresh controller, if the
three newest issues are complete and the fourth is incomplete, the loop halts
after processing exactly the three complete issues (the fourth and everything
after it is never evaluated); `processIssueStop` signals `should_stop` right
at the third consecutive complete issue, and the consecutive-complete counter
resets to zero whenever an incomplete issue is encountered. -/
theorem stop_after_three_consecutive_complete (rest : List Bool) :
    runLoop (true :: true :: true :: false :: rest) 0 = 3 ∧
    (processIssueStop true 2).2 = true ∧
    (∀ consecutive : Nat, processIssueStop false consecutive = (0, false)) := by
  refine ⟨rfl, rfl, fun consecutive => rfl⟩

/-- C8: with a single credential key, `handle_429_error` waits
`min(2 ^ attempt, 60)` seconds for attempts 1..5 and a flat 60 seconds for
every later attempt; in particular attempts 1, 2, 3 wait 2, 4 and 8
seconds. -/
theorem backoff_schedule (k : Nat) :
    (k ≤ 5 → handle_429_wait 1 k = some (min (2 ^ k) 60)) ∧
    (5 < k → handle_429_wait 1 k = some 60) ∧
    handle_429_wait 1 1 = some 2 ∧
    handle_429_wait 1 2 = some 4 ∧
    handle_429_wait 1 3 = some 8 := by
  refine ⟨fun hk => ?_, fun hk => ?_, rfl, rfl, rfl⟩
  · simp [handle_429_wait, hk]
  · simp [handle_429_wait, Nat.not_le_of_lt hk]

/-- Witness for `backoff_schedule` at attempts 4 and 6. -/
theorem backoff_schedule_witness :
    handle_429_wait 1 4 = some (min (2 ^ 4) 60) ∧ handle_429_wait 1 6 = some 60 :=
  ⟨(backoff_schedule 4).1 (by decide), (backoff_schedule 6).2.1 (by decide)⟩

/-- C4 fails on the code: listing and download requests share the single
`request_count` field, so the rotation point of a download call depends on
how many listing calls preceded it. Starting from a fresh two-key client, one
download call does not rotate the key; after nine listing calls — which leave
the current key back at its initial position — the very same download call
does rotate it. -/
theorem rotation_counters_not_independent :
    (listingRequestStep^[9] ⟨0, 0, 2⟩).keyIndex = (⟨0, 0, 2⟩ : ClientState).keyIndex ∧
    (downloadRequestStep ⟨0, 0, 2⟩).keyIndex = 0 ∧
    (downloadRequestStep (listingRequestStep^[9] ⟨0, 0, 2⟩)).keyIndex = 1 := by
  decide

/-- C4 amended: the client keeps one shared request counter, incremented by
listing and download calls alike; a listing call rotates the key exactly when
the shared counter (after its increment) is divisible by 4, and a download
call exactly when it is divisible by 10. -/
theorem rotation_shared_counter (ops : List Bool) (s : ClientState) :
    (runRequests ops s).requestCount = s.requestCount + ops.length ∧
    (downloadRequestStep s).keyIndex =
      (if (s.requestCount + 1) % 10 = 0 then (s.keyIndex + 1) % s.numKeys else s.keyIndex) ∧
    (listingRequestStep s).keyIndex =
      (if (s.requestCount + 1) % 4 = 0 then (s.keyIndex + 1) % s.numKeys else s.keyIndex) := by
  refine ⟨?_, ?_, ?_⟩
  · induction ops generalizing s with
    | nil => simp [runRequests]
    | cons b rest ih =>
      cases b <;>
        simp only [runRequests, ih, downloadRequestStep, listingRequestStep,
          get_next_api_key] <;>
        split <;> simp <;> omega
  · unfold downloadRequestStep get_next_api_key
    split <;> simp_all
  · unfold listingRequestStep get_next_api_key
    split <;> simp_all

/-- Retrying `make_request` resolves any finite burst of 429s: `k` rate-limit
responses followed by a success yield the payload, from any attempt number. -/
theorem make_request_resolves_429 (k a p : Nat) :
    make_request (List.replicate k .rateLimited ++ [.ok p]) a = some p := by
  induction k generalizing a with
  | zero => rfl
  | succ n ih => simpa [List.replicate, make_request] using ih (a + 1)

/-- In `download_article_text` every 429 consumes one attempt: `k` rate-limit
responses followed by a success return `True` exactly when the success is
still within the attempt budget, and `None` otherwise. -/
theorem download_429_budget (p : Nat) (k a : Nat) :
    download_article_text 3 (List.replicate k .rateLimited ++ [.ok p]) a =
      (if a + k ≤ 3 then some true else none) := by
  induction k generalizing a with
  | zero =>
    simp only [List.replicate, List.nil_append, download_article_text]
    split <;> split <;> simp <;> omega
  | succ n ih =>
    simp only [List.replicate, List.cons_append, download_article_text, List.append_eq]
    rw [ih (a + 1)]
    by_cases h : 3 < a
    · rw [if_pos h, if_neg (by omega)]
    · rw [if_neg h]
      have hiff : ((a + 1) + n ≤ 3) ↔ (a + (n + 1) ≤ 3) := by omega
      simp only [hiff]

/-- C5 fails on the code for downloads: a run whose requests eventually stop
returning 429 (three rate-limits, then success) still surfaces failure from
`download_article_text`, because the three 429s exhaust `max_retries = 3` and
the function falls off its loop returning `None`; `make_request` on the same
run returns the payload. -/
theorem download_429_surfaces_failure :
    download_article_text 3
        [.rateLimited, .rateLimited, .rateLimited, .ok 7] 1 = none ∧
    make_request [.rateLimited, .rateLimited, .rateLimited, .ok 7] 1 = some 7 := by
  decide

/-- C5 amended: rate-limit responses are retried without bound by listing
calls (`make_request` returns the payload after any number of 429s), but each
429 in `download_article_text` consumes one of the 3 attempts: the download
succeeds when at most two rate-limits precede the success and surfaces
failure (`None`) when three or more do. -/
theorem retry_429_behavior (k p : Nat) :
    make_request (List.replicate k .rateLimited ++ [.ok p]) 1 = some p ∧
    (k ≤ 2 → download_article_text 3
      (List.replicate k .rateLimited ++ [.ok p]) 1 = some true) ∧
    (3 ≤ k → download_article_text 3
      (List.replicate k .rateLimited ++ [.ok p]) 1 = none) := by
  refine ⟨make_request_resolves_429 k 1 p, fun hk => ?_, fun hk => ?_⟩
  · rw [download_429_budget p k 1]
    simp; omega
  · rw [download_429_budget p k 1]
    simp; omega

/-- Witness for `retry_429_behavior` at two and three rate-limits. -/
theorem retry_429_behavior_witness :
    download_article_text 3
      (List.replicate 2 .rateLimited ++ [.ok 5]) 1 = some true ∧
    download_article_text 3
      (List.replicate 3 .rateLimited ++ [.ok 5]) 1 = none :=
  ⟨(retry_429_behavior 2 5).2.1 (by decide), (retry_429_behavior 3 5).2.2 (by decide)⟩

/-- Every date kept by the cutoff loop is at least the cutoff. -/
theorem fetch_recent_issues_mem_ge (cutoff : Int) (dates : List Int) :
    ∀ d ∈ fetch_recent_issues cutoff dates, cutoff ≤ d := by
  induction dates with
  | nil => simp [fetch_recent_issues]
  | cons a t ih =>
    simp only [fetch_recent_issues]
    split
    · simp
    · next h =>
      intro d hd
      rcases List.mem_cons.mp hd with rfl | hd
      · omega
      · exact ih d hd

/-- On a newest-first (descending) stream the cutoff loop keeps exactly the
dates at least the cutoff. -/
theorem fetch_recent_issues_sorted_filter (cutoff : Int) (dates : List Int)
    (hsorted : dates.Sorted (· ≥ ·)) :
    fetch_recent_issues cutoff dates = dates.filter (fun d => cutoff ≤ d) := by
  induction dates with
  | nil => rfl
  | cons a t ih =>
    obtain ⟨ha, ht⟩ := List.sorted_cons.mp hsorted
    simp only [fetch_recent_issues, List.filter_cons]
    split
    · next h =>
      rw [if_neg (by simpa using (by omega : ¬ cutoff ≤ a))]
      rw [List.filter_eq_nil_iff.mpr]
      intro b hb
      have := ha b hb
      simpa using (by omega : ¬ cutoff ≤ b)
    · next h =>
      rw [if_pos (by simpa using (by omega : cutoff ≤ a))]
      rw [ih ht]

/-- The cutoff loop returns exactly the accumulated prefix once it meets the
first date strictly older than the cutoff. -/
theorem fetch_recent_issues_stops (cutoff : Int) (pre : List Int) (d : Int)
    (post : List Int) (hpre : ∀ x ∈ pre, cutoff ≤ x) (hd : d < cutoff) :
    fetch_recent_issues cutoff (pre ++ d :: post) = pre := by
  induction pre with
  | nil => simp [fetch_recent_issues, hd]
  | cons x pre' ih =>
    have hx := hpre x (by simp)
    simp only [List.cons_append, fetch_recent_issues, List.append_eq]
    rw [if_neg (by omega)]
    rw [ih (fun y hy => hpre y (by simp [hy]))]

/-- C2: a synchronization pass over a newest-first stream of fetched dates
keeps exactly the descriptors with `issueDate ≥ cutoff` and discards those
strictly older; every kept date is at least the cutoff, and the pass stops at
the first date strictly older than the cutoff, keeping everything accumulated
before that point. -/
theorem fetch_cutoff_correct (cutoff : Int) (dates : List Int) :
    (dates.Sorted (· ≥ ·) →
      fetch_recent_issues cutoff dates = dates.filter (fun d => cutoff ≤ d)) ∧
    (∀ d ∈ fetch_recent_issues cutoff dates, cutoff ≤ d) ∧
    (∀ pre d post, dates = pre ++ d :: post → (∀ x ∈ pre, cutoff ≤ x) →
      d < cutoff → fetch_recent_issues cutoff dates = pre) := by
  refine ⟨fun hs => fetch_recent_issues_sorted_filter cutoff dates hs,
    fetch_recent_issues_mem_ge cutoff dates, ?_⟩
  rintro pre d post rfl hpre hd
  exact fetch_recent_issues_stops cutoff pre d post hpre hd

/-- Witness for `fetch_cutoff_correct`: cutoff 0 over the stream
`[2, 1, -1]` keeps `[2, 1]`. -/
theorem fetch_cutoff_correct_witness :
    fetch_recent_issues 0 [2, 1, -1] = [2, 1] :=
  (fetch_cutoff_correct 0 [2, 1, -1]).2.2 [2, 1] (-1) [] rfl (by decide) (by decide)

/-- C3 fails on the code: the set of existing identity keys is computed once
and never extended while fetched issues are appended, so a fetched batch that
repeats a key yields a merged catalog with two entries for that key. With an
empty existing catalog and a batch repeating `(volume 118, issue 45)`, the
persisted catalog counts that key twice. -/
theorem merge_duplicate_key_counterexample :
    ((mergeAndSort [] [⟨118, 118, 45, 0⟩, ⟨118, 118, 45, 0⟩]).countP
      (fun i => issueKey i = (118, 45))) = 2 ∧
    ¬ ((mergeAndSort [] [⟨118, 118, 45, 0⟩, ⟨118, 118, 45, 0⟩]).map issueKey).Nodup := by
  have hperm :
      (mergeAndSort [] [⟨118, 118, 45, 0⟩, ⟨118, 118, 45, 0⟩]).Perm
        (mergeIssues [] [⟨118, 118, 45, 0⟩, ⟨118, 118, 45, 0⟩]) :=
    List.mergeSort_perm _ _
  constructor
  · rw [List.Perm.countP_eq _ hperm]
    decide
  · rw [List.Perm.nodup_iff (hperm.map issueKey)]
    decide

/-- C3 amended: the merge skips every fetched issue whose identity key
already occurs in the existing catalog, but does not deduplicate the fetched
batch against itself; when the existing catalog's keys are unique and the
fetched batch's keys are unique, the merged-and-sorted catalog contains at
most one entry per identity key. -/
theorem merge_nodup (existing recent : List Issue)
    (h1 : (existing.map issueKey).Nodup) (h2 : (recent.map issueKey).Nodup) :
    ((mergeAndSort existing recent).map issueKey).Nodup := by
  have hperm : (mergeAndSort existing recent).Perm (mergeIssues existing recent) :=
    List.mergeSort_perm _ _
  rw [List.Perm.nodup_iff (hperm.map issueKey)]
  unfold mergeIssues
  rw [List.map_append, List.nodup_append]
  refine ⟨h1, ?_, ?_⟩
  · exact ((List.filter_sublist recent).map issueKey).nodup h2
  · intro a ha hb
    obtain ⟨i, hi, rfl⟩ := List.mem_map.mp hb
    have hni := List.of_mem_filter hi
    simp only [decide_not, Bool.not_eq_true', decide_eq_false_iff_not] at hni
    exact hni ha

/-- Witness for `merge_nodup`: an existing catalog and a batch overlapping on
`(volume 118, issue 45)` merge without duplicate keys. -/
theorem merge_nodup_witness :
    ((mergeAndSort [⟨118, 118, 45, 10⟩]
        [⟨118, 118, 45, 10⟩, ⟨118, 118, 46, 11⟩]).map issueKey).Nodup :=
  merge_nodup [⟨118, 118, 45, 10⟩] [⟨118, 118, 45, 10⟩, ⟨118, 118, 46, 11⟩]
    (by decide) (by decide)

/-- The first component of the section-article counting fold: starting the
enumeration from any index, the total count grows by exactly the number of
downloadable section articles. -/
theorem countSectionArticles_enumFrom_fst (fe : String → Bool) (issue : IssueMeta)
    (sas : List SectionArticle) :
    ∀ (n : Nat) (acc : Nat × Nat),
    ((List.enumFrom n sas).foldl
        (fun acc p =>
          if downloadable p.2 then
            (acc.1 + 1, acc.2 +
              if fe (completenessArtifactPath issue (sectionTitle p.1 p.2)) then 1 else 0)
          else acc) acc).1 = acc.1 + sas.countP downloadable := by
  induction sas with
  | nil => intro n acc; simp
  | cons a t ih =>
    intro n acc
    rw [List.enumFrom_cons, List.foldl_cons, List.countP_cons]
    by_cases h : downloadable a
    · simp only [h, if_true, ih]
      omega
    · simp only [h, if_false, ih]
      simp only [Bool.false_eq_true, if_false]
      omega

/-- `countSectionArticles` adds the number of downloadable section articles
to the running total. -/
theorem countSectionArticles_fst (fe : String → Bool) (issue : IssueMeta)
    (acc : Nat × Nat) (sas : List SectionArticle) :
    (countSectionArticles fe issue acc sas).1 = acc.1 + sas.countP downloadable :=
  countSectionArticles_enumFrom_fst fe issue sas 0 acc

/-- The article-level fold of `check_issue_completeness` totals the
downloadable section articles across all article groupings. -/
theorem check_counts_total (fe : String → Bool) (issue : IssueMeta)
    (articles : List Article) :
    ∀ acc : Nat × Nat,
    ((articles.foldl
        (fun acc a => countSectionArticles fe issue acc a.sectionArticles) acc).1)
      = acc.1 + (articles.map (fun a => a.sectionArticles.countP downloadable)).sum := by
  induction articles with
  | nil => intro acc; simp
  | cons a t ih =>
    intro acc
    rw [List.foldl_cons, List.map_cons, List.sum_cons, ih, countSectionArticles_fst]
    omega

/-- C7: when the per-congress directory exists, `check_issue_completeness`
reports the issue complete iff `totalCount > 0` and
`existingCount = totalCount`, where `totalCount` counts exactly the section
articles carrying a usable "Formatted Text" variant; an issue with zero
downloadable sub-articles is never reported complete. -/
theorem check_issue_completeness_spec (dirE : Bool) (fe : String → Bool)
    (issue : IssueMeta) (articles : List Article) (h : dirE = true) :
    ((check_issue_completeness dirE fe issue articles).1 = true ↔
      0 < (check_issue_completeness dirE fe issue articles).2.2 ∧
      (check_issue_completeness dirE fe issue articles).2.1 =
        (check_issue_completeness dirE fe issue articles).2.2) ∧
    (check_issue_completeness dirE fe issue articles).2.2 =
      (articles.map (fun a => a.sectionArticles.countP downloadable)).sum ∧
    ((articles.map (fun a => a.sectionArticles.countP downloadable)).sum = 0 →
      (check_issue_completeness dirE fe issue articles).1 = false) := by
  subst h
  have htot := check_counts_total fe issue articles (0, 0)
  simp only [check_issue_completeness, Bool.not_true, Bool.false_eq_true, if_false]
  refine ⟨by simp, by simpa using htot, fun hzero => ?_⟩
  simp only [decide_eq_false_iff_not]
  rintro ⟨hpos, -⟩
  omega

/-- Witness for `check_issue_completeness_spec`: an issue with an existing
congress directory but no downloadable sub-articles is not complete. -/
theorem check_issue_completeness_spec_witness :
    (check_issue_completeness true (fun _ => false)
        ⟨118, 118, 45, "2023-06-01"⟩ []).1 = false :=
  (check_issue_completeness_spec true (fun _ => false)
    ⟨118, 118, 45, "2023-06-01"⟩ [] rfl).2.2 rfl

/-- C9: the derived artifact path is a pure function of
(date, congress, volume, issue, title): equal inputs yield the identical path
in any two invocations, within a run or across process restarts, and the
completeness check (line 220) and the download step (line 289) derive the
same path, so the presence check behaves identically in both. -/
theorem artifact_path_deterministic (i1 i2 : IssueMeta) (t1 t2 : String)
    (hi : i1 = i2) (ht : t1 = t2) :
    processArtifactPath i1 t1 = processArtifactPath i2 t2 ∧
    processArtifactPath i1 t1 = completenessArtifactPath i1 t1 := by
  subst hi; subst ht; exact ⟨rfl, rfl⟩

/-- Witness for `artifact_path_deterministic` at a concrete issue/title. -/
theorem artifact_path_deterministic_witness :
    processArtifactPath ⟨118, 118, 45, "2023-06-01T00:00:00Z"⟩ "A Title." =
      completenessArtifactPath ⟨118, 118, 45, "2023-06-01T00:00:00Z"⟩ "A Title." :=
  (artifact_path_deterministic ⟨118, 118, 45, "2023-06-01T00:00:00Z"⟩
    ⟨118, 118, 45, "2023-06-01T00:00:00Z"⟩ "A Title." "A Title." rfl rfl).2

/-- The head of a `dropWhile` never satisfies the dropped predicate. -/
theorem head?_dropWhile_eq_some {α : Type} (p : α → Bool) (l : List α) (c : α)
    (h : (l.dropWhile p).head? = some c) : p c = false := by
  induction l with
  | nil => simp [List.dropWhile] at h
  | cons a t ih =>
    rw [List.dropWhile_cons] at h
    split at h
    · exact ih h
    · next hpa =>
      simp only [List.head?_cons, Option.some.injEq] at h
      subst h
      simpa using hpa

/-- `pyStrip` only removes characters. -/
theorem pyStrip_sublist (l : List Char) : (pyStrip l).Sublist l := by
  unfold pyStrip
  have h1 : (l.dropWhile isPyWhitespace).Sublist l := List.dropWhile_sublist _
  have h2 := (List.dropWhile_sublist (l := (l.dropWhile isPyWhitespace).reverse)
    isPyWhitespace).reverse
  rw [List.reverse_reverse] at h2
  exact h2.trans h1

/-- The first character surviving `pyStrip` is not whitespace. -/
theorem head?_pyStrip (l : List Char) (c : Char)
    (h : (pyStrip l).head? = some c) : isPyWhitespace c = false := by
  have hpre : (pyStrip l) <+: (l.dropWhile isPyWhitespace) := by
    unfold pyStrip
    have hsuf := List.reverse_prefix.mpr
      (List.dropWhile_suffix (l := (l.dropWhile isPyWhitespace).reverse) isPyWhitespace)
    rwa [List.reverse_reverse] at hsuf
  obtain ⟨t, ht⟩ := hpre
  have hh : (l.dropWhile isPyWhitespace).head? = some c := by
    rw [← ht, List.head?_append, h]; rfl
  exact head?_dropWhile_eq_some _ _ _ hh

/-- The last character surviving `pyStrip` is not whitespace. -/
theorem getLast?_pyStrip (l : List Char) (c : Char)
    (h : (pyStrip l).getLast? = some c) : isPyWhitespace c = false := by
  unfold pyStrip at h
  rw [List.getLast?_reverse] at h
  exact head?_dropWhile_eq_some _ _ _ h

/-- C10: `safe_filename` always returns at most 100 characters, all from the
fixed safe set, with no leading or trailing whitespace; and it is not
injective — distinct titles can collide on the same filename. -/
theorem safe_filename_spec (text : List Char) :
    (safe_filename text).length ≤ 100 ∧
    (∀ c ∈ safe_filename text, c ∈ safeChars) ∧
    (∀ c, (safe_filename text).head? = some c → isPyWhitespace c = false) ∧
    (∀ c, (safe_filename text).getLast? = some c → isPyWhitespace c = false) ∧
    ∃ t1 t2 : List Char, t1 ≠ t2 ∧ safe_filename t1 = safe_filename t2 := by
  refine ⟨?_, ?_, ?_, ?_, ⟨['?'], ['!'], by decide, by decide⟩⟩
  · exact le_trans (pyStrip_sublist _).length_le (List.length_take_le 100 _)
  · intro c hc
    have hmem := List.take_subset 100 _ ((pyStrip_sublist _).subset hc)
    obtain ⟨a, -, rfl⟩ := List.mem_map.mp hmem
    by_cases h : a ∈ safeChars
    · simp [h]
    · simp only [h, if_false]
      decide
  · intro c hc
    exact head?_pyStrip _ _ hc
  · intro c hc
    exact getLast?_pyStrip _ _ hc

/-- Witness for `safe_filename_spec` at concrete inputs. -/
theorem safe_filename_spec_witness :
    (safe_filename (List.replicate 150 'a')).length ≤ 100 ∧
    '_' ∈ safeChars ∧
    isPyWhitespace 'a' = false :=
  ⟨(safe_filename_spec (List.replicate 150 'a')).1,
   (safe_filename_spec ['?']).2.1 '_' (by decide),
   (safe_filename_spec ['a']).2.2.1 'a' (by decide)⟩

end CongressionalRecords
